import Mathlib

/-!
 # Verification of the cashcov typed Redis cache facade

Shallow embedding of the Go package `cache` (files `cache.go`, `helper.go`,
`lock.go`, `types.go`, `config.go`).  Conventions of the embedding:

* `time.Duration` and `time.Time` are modelled as `Int` (nanoseconds); the
  model state carries a current instant `now` and `time.Since t = now - t`.
* Go `float64` values (refresh-ahead threshold, probabilistic beta, the
  uniform random draw) are modelled as `Rat`.  The claims under study concern
  sign and ordering of these quantities, which `Rat` captures exactly.
* The Redis backend is an association list from full keys to stored bytes
  together with the TTL they were written with.  Transport failures are
  injected through the lists `failSet`, `failGet`, `failTTL`, `failExists` of
  keys on which the corresponding primitive errors out.
* The JSON serializer (`json.Marshal` / `json.Unmarshal`) is a pluggable pair
  `enc : T → Option B`, `dec : B → Option T` carried by the handler; the Go
  zero value of `T` is the field `zero`.
* Every backend or ledger side effect additionally appends an event to a
  trace, so that "which pathway performed this write" is observable:
  `redisSet k` is emitted exactly on a *successful* backend write of key `k`,
  and `ledgerSet k` exactly when the refresh ledger entry of `k` is written.
* Goroutine spawns (`go f(...)`) on the foreground paths are recorded as
  `spawn…` events; the bodies of the background tasks are modelled as
  separate functions, with the outcome of their `TryLock` passed in as a
  parameter (lock contention is decided by the environment).
-/

namespace Cashcov

/-- Observable events of a run: lock operations, generator invocations,
successful backend writes, ledger writes, reads/probes, and task spawns. -/
inductive Ev where
  | lock (k : String)
  | unlock (k : String)
  | tryLockOk (k : String)
  | tryLockFail (k : String)
  | genCall
  | redisSet (k : String)
  | ledgerSet (k : String)
  | redisGet (k : String)
  | redisTTLProbe (k : String)
  | redisExistsProbe (k : String)
  | spawnRefresh (k : String)
  | spawnStale (k : String)
  | spawnBgMissWrite (k : String)
  | spawnScheduleRA (k : String)
  | spawnEnableProb (k : String)
  deriving DecidableEq, Repr

/-- Error categories surfaced by the handler (`redis.Nil` is the distinguished
miss signal tested with `errors.Is`). -/
inductive CErr where
  | redisNil
  | redisGet
  | redisSet
  | marshal
  | unmarshal
  | generator
  | failFast
  deriving DecidableEq, Repr

/-- Go struct `Result[T]`: value plus `FromCache` and `CachedAt` metadata.
`CachedAt = 0` models the zero `time.Time` of Go. -/
structure Result (T : Type) where
  Value : T
  FromCache : Bool := false
  CachedAt : Int := 0
  deriving DecidableEq, Repr

/-- Go type `MissPolicy` (an `int` enum with eight declared constants). -/
inductive MissPolicy where
  | syncWriteThenReturn
  | returnThenAsyncWrite
  | staleWhileRevalidate
  | failFast
  | refreshAhead
  | cooperativeRefresh
  | bestEffort
  | probabilisticRefresh
  deriving DecidableEq, Repr

/-- Go struct `handlerConfig` (the fields the core logic reads; the Redis
client handle lives in the model state instead).  `pfx` is the Go field
`prefix` (renamed: `prefix` is reserved in Lean). -/
structure Config where
  pfx : String := ""
  defaultTTL : Int := 5 * 60 * 1000000000
  bgRefreshTimeout : Int := 5 * 1000000000
  refreshCooldown : Int := 0
  defaultMissPolicy : MissPolicy := .syncWriteThenReturn
  staleDataTTL : Int := 24 * 60 * 60 * 1000000000
  defaultRefreshAheadThreshold : Rat := (2 : Rat) / 10
  defaultProbabilisticBeta : Rat := 1
  cooperativeTimeout : Int := 10 * 1000000000
  deriving DecidableEq, Repr

/-- Go struct `callOpts` (per-call options). -/
structure CallOpts where
  ttl : Int := 0
  disableHitRefresh : Bool := false
  overrideMissPolicy : Option MissPolicy := none
  refreshAheadThreshold : Rat := 0
  probabilisticRefreshBeta : Rat := 0
  staleCheckTimeout : Int := 0
  deriving DecidableEq, Repr

/-- The handler: configuration plus the serializer for `T` and the Go zero
value of `T`.  (The mutable ledger and the backend live in `HState`.) -/
structure Handler (T B : Type) where
  cfg : Config
  enc : T → Option B
  dec : B → Option T
  zero : T

/-- Association-list lookup (leftmost binding wins, like a Go map whose
updates are modelled by prepending). -/
def lookupA {α : Type} : List (String × α) → String → Option α
  | [], _ => none
  | (k, a) :: rest, key => if k = key then some a else lookupA rest key

/-- Association-list update: prepend the new binding. -/
def insertA {α : Type} (l : List (String × α)) (k : String) (a : α) :
    List (String × α) :=
  (k, a) :: l

/-- Model state: Redis store (key ↦ stored bytes and the TTL they were set
with), the in-memory refresh ledger `lastRefreshByKey`, the current instant,
injected backend failures, and the event trace. -/
structure HState (B : Type) where
  store : List (String × (B × Int)) := []
  ledger : List (String × Int) := []
  now : Int := 0
  failSet : List String := []
  failGet : List String := []
  failTTL : List String := []
  failExists : List String := []
  trace : List Ev := []

/-- Append one event to the trace. -/
def emit {B : Type} (st : HState B) (e : Ev) : HState B :=
  { st with trace := st.trace ++ [e] }

namespace Handler

variable {T B : Type}

/-- Go `Handler.fullKey`: prepend `prefix + ":"` when the prefix is
non-empty. -/
def fullKey (h : Handler T B) (key : String) : String :=
  if h.cfg.pfx = "" then key else h.cfg.pfx ++ ":" ++ key

/-- Go `Handler.setLastRefreshNow`: no-op when the cooldown is non-positive,
otherwise record the current time for `fullKey` in the ledger. -/
def setLastRefreshNow (h : Handler T B) (st : HState B) (k : String) :
    HState B :=
  if h.cfg.refreshCooldown ≤ 0 then st
  else
    { emit st (.ledgerSet k) with ledger := insertA st.ledger k st.now }

/-- Go `Handler.shouldRefreshNow`: true iff the cooldown is non-positive, or
no refresh is recorded for `fullKey`, or at least `refreshCooldown` has
elapsed since the recorded one. -/
def shouldRefreshNow (h : Handler T B) (st : HState B) (k : String) : Bool :=
  if h.cfg.refreshCooldown ≤ 0 then true
  else
    match lookupA st.ledger k with
    | none => true
    | some last => st.now - last ≥ h.cfg.refreshCooldown

/-- Go `Handler.Set`: resolve the effective TTL, marshal, write to the
backend at the full key, then update the refresh ledger for cooldown
accounting. -/
def Set (h : Handler T B) (st : HState B) (key : String) (co : CallOpts)
    (value : T) : HState B × Option CErr :=
  let ttl := if co.ttl ≤ 0 then h.cfg.defaultTTL else co.ttl
  let k := h.fullKey key
  match h.enc value with
  | none => (st, some .marshal)
  | some b =>
    if k ∈ st.failSet then (st, some .redisSet)
    else
      let st' := { emit st (.redisSet k) with store := insertA st.store k (b, ttl) }
      (h.setLastRefreshNow st' k, none)

/-- Go `Handler.Get`: fetch the full key, decode; `redis.Nil` is surfaced as
the distinguished miss error. -/
def Get (h : Handler T B) (st : HState B) (key : String) :
    HState B × Result T × Option CErr :=
  let k := h.fullKey key
  let st' := emit st (.redisGet k)
  if k ∈ st.failGet then (st', ⟨h.zero, false, 0⟩, some .redisGet)
  else
    match lookupA st.store k with
    | none => (st', ⟨h.zero, false, 0⟩, some .redisNil)
    | some (b, _) =>
      match h.dec b with
      | none => (st', ⟨h.zero, false, 0⟩, some .unmarshal)
      | some v => (st', ⟨v, true, st.now⟩, none)

/-- Go `Handler.missSyncWriteThenReturn`: acquire the per-key lock, re-read
(double-check), and if still missing generate and write through `Set`.
The blocking `Lock`/deferred unlock appear as trace events. -/
def missSyncWriteThenReturn (h : Handler T B) (st : HState B) (key : String)
    (ttl : Int) (gen : Option T) : HState B × Result T × Option CErr :=
  let k := h.fullKey key
  let st0 := emit st (.lock k)
  match h.Get st0 key with
  | (st1, res, none) => (emit st1 (.unlock k), res, none)
  | (st1, _, some .redisNil) =>
    let st2 := emit st1 .genCall
    match gen with
    | none => (emit st2 (.unlock k), ⟨h.zero, false, 0⟩, some .generator)
    | some v =>
      match h.Set st2 key { ttl := ttl } v with
      | (st3, none) => (emit st3 (.unlock k), ⟨v, false, st3.now⟩, none)
      | (st3, some e) => (emit st3 (.unlock k), ⟨h.zero, false, 0⟩, some e)
  | (st1, _, some e) => (emit st1 (.unlock k), ⟨h.zero, false, 0⟩, some e)

/-- Go `Handler.missReturnThenAsyncWrite`: generate synchronously, then spawn
`spawnBackgroundMissWrite` and return the value. -/
def missReturnThenAsyncWrite (h : Handler T B) (st : HState B) (key : String)
    (_ttl : Int) (gen : Option T) : HState B × Result T × Option CErr :=
  let st0 := emit st .genCall
  match gen with
  | none => (st0, ⟨h.zero, false, 0⟩, some .generator)
  | some v =>
    (emit st0 (.spawnBgMissWrite (h.fullKey key)), ⟨v, false, st0.now⟩, none)

/-- Go `Handler.spawnBackgroundMissWrite` (background task body): try-lock,
double-check existence, and if still absent write through `Set`.  `lockOk` is
the answer of the environment to `TryLock`. -/
def spawnBackgroundMissWrite (h : Handler T B) (st : HState B) (key : String)
    (ttl : Int) (v : T) (lockOk : Bool) : HState B :=
  let k := h.fullKey key
  if !lockOk then emit st (.tryLockFail k)
  else
    let st0 := emit st (.tryLockOk k)
    let st1 := emit st0 (.redisExistsProbe k)
    if k ∈ st.failExists then emit st1 (.unlock k)
    else
      match lookupA st.store k with
      | some _ => emit st1 (.unlock k)
      | none => emit (h.Set st1 key { ttl := ttl } v).1 (.unlock k)

/-- Go `Handler.spawnBackgroundRefresh` (background task body): try-lock,
respect the cooldown, generate, and write through `Set`.  Errors are
swallowed. -/
def spawnBackgroundRefresh (h : Handler T B) (st : HState B) (key : String)
    (ttl : Int) (gen : Option T) (lockOk : Bool) : HState B :=
  let k := h.fullKey key
  if !lockOk then emit st (.tryLockFail k)
  else
    let st0 := emit st (.tryLockOk k)
    if !h.shouldRefreshNow st0 k then emit st0 (.unlock k)
    else
      let st1 := emit st0 .genCall
      match gen with
      | none => emit st1 (.unlock k)
      | some v => emit (h.Set st1 key { ttl := ttl } v).1 (.unlock k)

/-- Go `Handler.getFromKey`: read a specific full key and decode it; any
error collapses to `none` (the caller only tests `err == nil`). -/
def getFromKey (h : Handler T B) (st : HState B) (k : String) :
    HState B × Option T :=
  let st' := emit st (.redisGet k)
  if k ∈ st.failGet then (st', none)
  else
    match lookupA st.store k with
    | none => (st', none)
    | some (b, _) => (st', h.dec b)

/-- Go `Handler.setToKey`: marshal and write to a specific full key with the
given TTL.  Unlike `Set`, it does NOT touch the refresh ledger. -/
def setToKey (h : Handler T B) (st : HState B) (k : String) (value : T)
    (ttl : Int) : HState B × Option CErr :=
  match h.enc value with
  | none => (st, some .marshal)
  | some b =>
    if k ∈ st.failSet then (st, some .redisSet)
    else
      ({ emit st (.redisSet k) with store := insertA st.store k (b, ttl) },
        none)

/-- Go `Handler.spawnStaleRefresh` (background task body): try-lock on the
main full key, generate, update the main key through `Set`, then update the
stale companion key through `setToKey` with `staleDataTTL`. -/
def spawnStaleRefresh (h : Handler T B) (st : HState B) (key : String)
    (ttl : Int) (gen : Option T) (lockOk : Bool) : HState B :=
  let k := h.fullKey key
  let staleKey := h.fullKey (key ++ ":stale")
  if !lockOk then emit st (.tryLockFail k)
  else
    let st0 := emit (emit st (.tryLockOk k)) .genCall
    match gen with
    | none => emit st0 (.unlock k)
    | some v =>
      let st1 := (h.Set st0 key { ttl := ttl } v).1
      let st2 := (h.setToKey st1 staleKey v h.cfg.staleDataTTL).1
      emit st2 (.unlock k)

/-- Go `Handler.missStaleWhileRevalidate`: look for the stale companion key;
on success return it as a cached result and spawn `spawnStaleRefresh`,
otherwise fall back to `missSyncWriteThenReturn`.  (The stale-check timeout
only bounds the read; an expired timeout shows up as a failed read.) -/
def missStaleWhileRevalidate (h : Handler T B) (st : HState B) (key : String)
    (ttl : Int) (gen : Option T) (_co : CallOpts) :
    HState B × Result T × Option CErr :=
  let staleKey := h.fullKey (key ++ ":stale")
  match h.getFromKey st staleKey with
  | (st1, some v) =>
    (emit st1 (.spawnStale (h.fullKey key)), ⟨v, true, st1.now⟩, none)
  | (st1, none) => h.missSyncWriteThenReturn st1 key ttl gen

/-- Go `Handler.missFailFast`: immediately return `ErrCacheMissFailFast`. -/
def missFailFast (h : Handler T B) (st : HState B) (_key : String) :
    HState B × Result T × Option CErr :=
  (st, ⟨h.zero, false, 0⟩, some .failFast)

/-- Go `Handler.missRefreshAhead`: behave like the sync miss, then schedule
the delayed refresh-ahead task for future hits. -/
def missRefreshAhead (h : Handler T B) (st : HState B) (key : String)
    (ttl : Int) (gen : Option T) (_co : CallOpts) :
    HState B × Result T × Option CErr :=
  match h.missSyncWriteThenReturn st key ttl gen with
  | (st1, res, none) =>
    (emit st1 (.spawnScheduleRA (h.fullKey key)), res, none)
  | (st1, res, some e) => (st1, res, some e)

/-- Go `Handler.missCooperativeRefresh`: race the per-key lock acquisition
against `cooperativeTimeout`.  `timeoutWins` is the outcome of
that race, decided by the environment (with timeout 0 the context is already expired when the select
runs).  On timeout: generate directly and return WITHOUT writing to the
cache; otherwise proceed with the sync miss path. -/
def missCooperativeRefresh (h : Handler T B) (st : HState B) (key : String)
    (ttl : Int) (gen : Option T) (timeoutWins : Bool) :
    HState B × Result T × Option CErr :=
  if timeoutWins then
    let st0 := emit st .genCall
    match gen with
    | none => (st0, ⟨h.zero, false, 0⟩, some .generator)
    | some v => (st0, ⟨v, false, st0.now⟩, none)
  else h.missSyncWriteThenReturn st key ttl gen

/-- Go `Handler.missBestEffort`: generate; on generator error return the zero
value with NO error; on success write through `Set` but ignore any write
error, returning the generated value either way. -/
def missBestEffort (h : Handler T B) (st : HState B) (key : String)
    (ttl : Int) (gen : Option T) : HState B × Result T × Option CErr :=
  let st0 := emit st .genCall
  match gen with
  | none => (st0, ⟨h.zero, false, st0.now⟩, none)
  | some v => ((h.Set st0 key { ttl := ttl } v).1, ⟨v, false, st0.now⟩, none)

/-- Go `Handler.enableProbabilisticRefresh` (background task body): record
the creation stamp under `fullKey + "@created"` directly in the ledger map
(no cooldown gate). -/
def enableProbabilisticRefresh (h : Handler T B) (st : HState B)
    (key : String) : HState B :=
  { st with ledger := insertA st.ledger (h.fullKey key ++ "@created") st.now }

/-- Go `Handler.missProbabilisticRefresh`: behave like the sync miss, then
spawn `enableProbabilisticRefresh` for future hits. -/
def missProbabilisticRefresh (h : Handler T B) (st : HState B) (key : String)
    (ttl : Int) (gen : Option T) (_co : CallOpts) :
    HState B × Result T × Option CErr :=
  match h.missSyncWriteThenReturn st key ttl gen with
  | (st1, res, none) =>
    (emit st1 (.spawnEnableProb (h.fullKey key)), res, none)
  | (st1, res, some e) => (st1, res, some e)

/-- Go `Handler.shouldProbabilisticRefresh`: look up the `@created` stamp;
absent means false; otherwise compare the uniform draw `r` against
`(age / ttl) * beta`. -/
def shouldProbabilisticRefresh (h : Handler T B) (st : HState B)
    (key : String) (ttl : Int) (beta : Rat) (r : Rat) : Bool :=
  let k := h.fullKey key
  match lookupA st.ledger (k ++ "@created") with
  | none => false
  | some created =>
    let age := st.now - created
    let ageRatio : Rat := (age : Rat) / (ttl : Rat)
    r < ageRatio * beta

/-- Go `Handler.shouldRefreshAhead`: probe the remaining TTL; on probe error
or non-positive remaining return false, otherwise trigger iff
`remaining / originalTTL ≤ threshold`. -/
def shouldRefreshAhead (_h : Handler T B) (st : HState B) (k : String)
    (originalTTL : Int) (threshold : Rat) : HState B × Bool :=
  let st' := emit st (.redisTTLProbe k)
  if k ∈ st.failTTL then (st', false)
  else
    let remaining : Int :=
      match lookupA st.store k with
      | none => -2
      | some (_, d) => d
    if remaining ≤ 0 then (st', false)
    else (st', (remaining : Rat) / (originalTTL : Rat) ≤ threshold)

/-- Go `Handler.handleHitRefresh`: on a hit, decide per policy whether to
spawn a background refresh.  `r` is the uniform random draw used by the
probabilistic branch. -/
def handleHitRefresh (h : Handler T B) (st : HState B) (key : String)
    (ttl : Int) (missPolicy : MissPolicy) (co : CallOpts) (r : Rat) :
    HState B :=
  let k := h.fullKey key
  match missPolicy with
  | .refreshAhead =>
    let threshold :=
      if co.refreshAheadThreshold ≤ 0 then h.cfg.defaultRefreshAheadThreshold
      else co.refreshAheadThreshold
    match h.shouldRefreshAhead st k ttl threshold with
    | (st1, true) => emit st1 (.spawnRefresh k)
    | (st1, false) => st1
  | .probabilisticRefresh =>
    let beta :=
      if co.probabilisticRefreshBeta ≤ 0 then h.cfg.defaultProbabilisticBeta
      else co.probabilisticRefreshBeta
    if h.shouldProbabilisticRefresh st key ttl beta r then
      emit st (.spawnRefresh k)
    else st
  | _ =>
    if h.shouldRefreshNow st k then emit st (.spawnRefresh k) else st

/-- Go `Handler.GetOrRefresh`: resolve effective TTL and policy, try the
cache (scheduling a hit-path refresh unless disabled), and on `redis.Nil`
dispatch to the miss handler of that policy.  `r` and `timeoutWins` are the
random draw and cooperative-race outcome, decided by the environment. -/
def GetOrRefresh (h : Handler T B) (st : HState B) (key : String)
    (gen : Option T) (co : CallOpts) (r : Rat) (timeoutWins : Bool) :
    HState B × Result T × Option CErr :=
  let ttl := if co.ttl ≤ 0 then h.cfg.defaultTTL else co.ttl
  let missPolicy := co.overrideMissPolicy.getD h.cfg.defaultMissPolicy
  match h.Get st key with
  | (st1, res, none) =>
    let st2 :=
      if co.disableHitRefresh then st1
      else h.handleHitRefresh st1 key ttl missPolicy co r
    (st2, res, none)
  | (st1, _, some .redisNil) =>
    match missPolicy with
    | .syncWriteThenReturn => h.missSyncWriteThenReturn st1 key ttl gen
    | .returnThenAsyncWrite => h.missReturnThenAsyncWrite st1 key ttl gen
    | .staleWhileRevalidate => h.missStaleWhileRevalidate st1 key ttl gen co
    | .failFast => h.missFailFast st1 key
    | .refreshAhead => h.missRefreshAhead st1 key ttl gen co
    | .cooperativeRefresh =>
      h.missCooperativeRefresh st1 key ttl gen timeoutWins
    | .bestEffort => h.missBestEffort st1 key ttl gen
    | .probabilisticRefresh => h.missProbabilisticRefresh st1 key ttl gen co
  | (st1, _, some e) => (st1, ⟨h.zero, false, 0⟩, some e)

end Handler

/-!
 ## The keyed mutex (`lock.go`)

`keyedMutex` keeps, per key, a lazily materialized channel of capacity 1.
`Lock` sends into the channel (blocking while it is full), `TryLock` is the
non-blocking select on the same send, and the returned releaser receives from
the channel.  We model a finite set of tasks; each is `idle` or `critical k`
(inside the critical section it entered by a successful send on the
channel of `k`).  `chanFull k` is the one buffer slot of that channel.  A blocking `Lock`
is a task repeatedly attempting the `acquire` step; the lazily-created map
entry (guarded by `km.mu`) does not affect occupancy. -/

/-- Status of one task with respect to the keyed mutex. -/
inductive TaskSt where
  | idle
  | critical (k : String)
  deriving DecidableEq, Repr

/-- Global lock-system state: the tasks and, per key, whether the capacity-1
channel holds its token. -/
structure LockSys where
  tasks : List TaskSt
  chanFull : String → Bool

/-- Pointwise update of the channel-occupancy map. -/
def updChan (f : String → Bool) (k : String) (b : Bool) : String → Bool :=
  fun k' => if k' = k then b else f k'

/-- One step of the keyed-mutex protocol.  `acquire` is the successful send
`ch <- struct{}{}` (shared by `Lock` and a successful `TryLock`): it is
enabled only when the buffer is empty.  `tryFail` is the default
branch of `TryLock` when the buffer is full.  `release` is the receive performed by the
releaser. -/
inductive LStep : LockSys → LockSys → Prop where
  | acquire (l₁ l₂ : List TaskSt) (k : String) (f : String → Bool) :
      f k = false →
      LStep ⟨l₁ ++ TaskSt.idle :: l₂, f⟩
        ⟨l₁ ++ TaskSt.critical k :: l₂, updChan f k true⟩
  | tryFail (l₁ l₂ : List TaskSt) (k : String) (f : String → Bool) :
      f k = true →
      LStep ⟨l₁ ++ TaskSt.idle :: l₂, f⟩ ⟨l₁ ++ TaskSt.idle :: l₂, f⟩
  | release (l₁ l₂ : List TaskSt) (k : String) (f : String → Bool) :
      LStep ⟨l₁ ++ TaskSt.critical k :: l₂, f⟩
        ⟨l₁ ++ TaskSt.idle :: l₂, updChan f k false⟩

/-- Reachability from a given initial state. -/
inductive LReach (init : LockSys) : LockSys → Prop where
  | refl : LReach init init
  | step {s s' : LockSys} : LReach init s → LStep s s' → LReach init s'

/-- Number of tasks currently inside the critical section of key `k`. -/
def countCrit (tasks : List TaskSt) (k : String) : Nat :=
  tasks.countP (fun t => t = TaskSt.critical k)

/-- The inductive invariant: per key, at most one task is critical, and an
empty channel slot means no task is critical. -/
def LockInv (s : LockSys) : Prop :=
  ∀ k, countCrit s.tasks k ≤ 1 ∧
    (s.chanFull k = false → countCrit s.tasks k = 0)

/-- A lock system whose tasks are all idle (any number of them). -/
def allIdle (n : Nat) : LockSys :=
  ⟨List.replicate n TaskSt.idle, fun _ => false⟩

/-- A trace is ledger-coupled when every successful backend write of a key is
accompanied by a refresh-ledger update of the same key — the observable
signature of a write that went through the single `Set` pathway. -/
def ledgerCoupled {B : Type} (st : HState B) : Prop :=
  ∀ k, Ev.redisSet k ∈ st.trace → Ev.ledgerSet k ∈ st.trace

/-- A concrete handler over `T = Nat` used to instantiate the generic
theorems: a unary serializer (kernel-computable), zero value 0, and a
configurable refresh cooldown. -/
def natHandler (cd : Int) : Handler Nat (List Unit) :=
  { cfg := { refreshCooldown := cd }
    enc := fun n => some (List.replicate n ())
    dec := fun l => some l.length
    zero := 0 }

/-!
 ## Helper lemmas
-/

@[simp] theorem emit_store {B : Type} (st : HState B) (e : Ev) :
    (emit st e).store = st.store := rfl

@[simp] theorem emit_ledger {B : Type} (st : HState B) (e : Ev) :
    (emit st e).ledger = st.ledger := rfl

@[simp] theorem emit_now {B : Type} (st : HState B) (e : Ev) :
    (emit st e).now = st.now := rfl

@[simp] theorem emit_failSet {B : Type} (st : HState B) (e : Ev) :
    (emit st e).failSet = st.failSet := rfl

@[simp] theorem emit_failGet {B : Type} (st : HState B) (e : Ev) :
    (emit st e).failGet = st.failGet := rfl

@[simp] theorem emit_failTTL {B : Type} (st : HState B) (e : Ev) :
    (emit st e).failTTL = st.failTTL := rfl

@[simp] theorem emit_failExists {B : Type} (st : HState B) (e : Ev) :
    (emit st e).failExists = st.failExists := rfl

@[simp] theorem emit_trace {B : Type} (st : HState B) (e : Ev) :
    (emit st e).trace = st.trace ++ [e] := rfl

@[simp] theorem lookupA_insertA_self {α : Type} (l : List (String × α))
    (k : String) (a : α) : lookupA (insertA l k a) k = some a := by
  simp [insertA, lookupA]

theorem lookupA_insertA_ne {α : Type} (l : List (String × α))
    (k k' : String) (a : α) (hne : k ≠ k') :
    lookupA (insertA l k a) k' = lookupA l k' := by
  simp [insertA, lookupA, hne]

/-- Appending a suffix never removes a string from its prefix. -/
theorem ne_self_append_of_ne_empty (s t : String) (ht : t ≠ "") :
    s ≠ s ++ t := by
  intro hEq
  apply ht
  have hlen : s.length = s.length + t.length := by
    conv_lhs => rw [hEq]
    simp
  have : t.length = 0 := by omega
  exact String.ext (List.length_eq_zero.mp this)

@[simp] theorem countCrit_append (l₁ l₂ : List TaskSt) (k : String) :
    countCrit (l₁ ++ l₂) k = countCrit l₁ k + countCrit l₂ k := by
  simp [countCrit, List.countP_append]

@[simp] theorem countCrit_idle_cons (l : List TaskSt) (k : String) :
    countCrit (TaskSt.idle :: l) k = countCrit l k := by
  simp [countCrit, List.countP_cons]

@[simp] theorem countCrit_crit_cons_self (l : List TaskSt) (k : String) :
    countCrit (TaskSt.critical k :: l) k = countCrit l k + 1 := by
  simp [countCrit, List.countP_cons]

theorem countCrit_crit_cons_ne (l : List TaskSt) (k k' : String)
    (hk : k ≠ k') :
    countCrit (TaskSt.critical k :: l) k' = countCrit l k' := by
  simp [countCrit, List.countP_cons, hk]

/-- Preservation: one protocol step keeps the inductive lock invariant. -/
theorem lockInv_step {s s' : LockSys} (hs : LockInv s) (hstep : LStep s s') :
    LockInv s' := by
  cases hstep with
  | acquire l₁ l₂ k f hf =>
    intro k'
    have hbefore := hs k'
    simp only [countCrit_append, countCrit_idle_cons] at hbefore
    have h0 : countCrit l₁ k + countCrit l₂ k = 0 := by
      have := (hs k).2 hf
      simpa using this
    by_cases hk : k = k'
    · subst hk
      simp only [countCrit_append, countCrit_crit_cons_self]
      refine ⟨by omega, ?_⟩
      intro hfalse
      simp [updChan] at hfalse
    · simp only [countCrit_append, countCrit_crit_cons_ne _ _ _ hk]
      refine ⟨hbefore.1, ?_⟩
      intro hfalse
      have hfk : f k' = false := by
        simpa [updChan, Ne.symm hk] using hfalse
      exact hbefore.2 hfk
  | tryFail l₁ l₂ k f hf => exact hs
  | release l₁ l₂ k f =>
    intro k'
    have hbefore := hs k'
    simp only [countCrit_append, countCrit_idle_cons]
    by_cases hk : k = k'
    · subst hk
      simp only [countCrit_append, countCrit_crit_cons_self] at hbefore
      exact ⟨by omega, fun _ => by omega⟩
    · simp only [countCrit_append, countCrit_crit_cons_ne _ _ _ hk]
        at hbefore
      refine ⟨hbefore.1, ?_⟩
      intro hfalse
      have hfk : f k' = false := by
        simpa [updChan, Ne.symm hk] using hfalse
      exact hbefore.2 hfk

/-- The invariant holds along every reachable state. -/
theorem lockInv_reach {init s : LockSys} (hinit : LockInv init)
    (hr : LReach init s) : LockInv s := by
  induction hr with
  | refl => exact hinit
  | step _ hstep ih => exact lockInv_step ih hstep

theorem lockInv_allIdle (n : Nat) : LockInv (allIdle n) := by
  intro k
  have : countCrit (List.replicate n TaskSt.idle) k = 0 := by
    simp [countCrit, List.countP_eq_zero]
  exact ⟨by simp [allIdle, this], fun _ => by simp [allIdle, this]⟩

section StateComponents

variable {T B : Type} (h : Handler T B) (st : HState B) (k : String)

@[simp] theorem setLastRefreshNow_store :
    (h.setLastRefreshNow st k).store = st.store := by
  unfold Handler.setLastRefreshNow; split <;> rfl

@[simp] theorem setLastRefreshNow_now :
    (h.setLastRefreshNow st k).now = st.now := by
  unfold Handler.setLastRefreshNow; split <;> rfl

@[simp] theorem setLastRefreshNow_failSet :
    (h.setLastRefreshNow st k).failSet = st.failSet := by
  unfold Handler.setLastRefreshNow; split <;> rfl

@[simp] theorem setLastRefreshNow_failGet :
    (h.setLastRefreshNow st k).failGet = st.failGet := by
  unfold Handler.setLastRefreshNow; split <;> rfl

@[simp] theorem setLastRefreshNow_failTTL :
    (h.setLastRefreshNow st k).failTTL = st.failTTL := by
  unfold Handler.setLastRefreshNow; split <;> rfl

@[simp] theorem setLastRefreshNow_failExists :
    (h.setLastRefreshNow st k).failExists = st.failExists := by
  unfold Handler.setLastRefreshNow; split <;> rfl

end StateComponents

section Characterizations

variable {T B : Type} (h : Handler T B) (st : HState B) (key : String)

/-- `Get` always leaves exactly one read event, whatever its outcome. -/
theorem Get_state : (h.Get st key).1 = emit st (.redisGet (h.fullKey key)) := by
  unfold Handler.Get
  dsimp only
  split
  · rfl
  · split
    · rfl
    · split <;> rfl

theorem Get_hit (b : B) (d : Int) (v : T)
    (hfg : h.fullKey key ∉ st.failGet)
    (hl : lookupA st.store (h.fullKey key) = some (b, d))
    (hdec : h.dec b = some v) :
    h.Get st key =
      (emit st (.redisGet (h.fullKey key)), ⟨v, true, st.now⟩, none) := by
  unfold Handler.Get
  simp [hfg, hl, hdec]

theorem Get_miss (hfg : h.fullKey key ∉ st.failGet)
    (hl : lookupA st.store (h.fullKey key) = none) :
    h.Get st key =
      (emit st (.redisGet (h.fullKey key)), ⟨h.zero, false, 0⟩,
        some .redisNil) := by
  unfold Handler.Get
  simp [hfg, hl]

theorem Get_transport_fail (hfg : h.fullKey key ∈ st.failGet) :
    h.Get st key =
      (emit st (.redisGet (h.fullKey key)), ⟨h.zero, false, 0⟩,
        some .redisGet) := by
  unfold Handler.Get
  simp [hfg]

theorem Get_decode_fail (b : B) (d : Int)
    (hfg : h.fullKey key ∉ st.failGet)
    (hl : lookupA st.store (h.fullKey key) = some (b, d))
    (hdec : h.dec b = none) :
    h.Get st key =
      (emit st (.redisGet (h.fullKey key)), ⟨h.zero, false, 0⟩,
        some .unmarshal) := by
  unfold Handler.Get
  simp [hfg, hl, hdec]

theorem Set_enc_fail (co : CallOpts) (v : T) (henc : h.enc v = none) :
    h.Set st key co v = (st, some .marshal) := by
  unfold Handler.Set
  rw [henc]

theorem setLastRefreshNow_trace (k : String) :
    (h.setLastRefreshNow st k).trace = st.trace ++
      (if h.cfg.refreshCooldown ≤ 0 then [] else [Ev.ledgerSet k]) := by
  unfold Handler.setLastRefreshNow
  split <;> simp [emit]

theorem Set_ok (co : CallOpts) (v : T) (b : B)
    (henc : h.enc v = some b) (hfs : h.fullKey key ∉ st.failSet) :
    h.Set st key co v =
      (h.setLastRefreshNow
        { st with
          store := insertA st.store (h.fullKey key)
            (b, if co.ttl ≤ 0 then h.cfg.defaultTTL else co.ttl),
          trace := st.trace ++ [Ev.redisSet (h.fullKey key)] }
        (h.fullKey key), none) := by
  unfold Handler.Set
  rw [henc]
  simp [hfs, emit]

theorem Set_fail (co : CallOpts) (v : T) (b : B)
    (henc : h.enc v = some b) (hfs : h.fullKey key ∈ st.failSet) :
    h.Set st key co v = (st, some .redisSet) := by
  unfold Handler.Set
  rw [henc]
  simp [hfs]

theorem setToKey_ok (k : String) (v : T) (b : B) (ttl : Int)
    (henc : h.enc v = some b) (hfs : k ∉ st.failSet) :
    h.setToKey st k v ttl =
      ({ st with
          store := insertA st.store k (b, ttl)
          trace := st.trace ++ [Ev.redisSet k] }, none) := by
  unfold Handler.setToKey
  rw [henc]
  simp [hfs, emit]

theorem setToKey_fail (k : String) (v : T) (b : B) (ttl : Int)
    (henc : h.enc v = some b) (hfs : k ∈ st.failSet) :
    h.setToKey st k v ttl = (st, some .redisSet) := by
  unfold Handler.setToKey
  rw [henc]
  simp [hfs]

theorem setToKey_enc_fail (k : String) (v : T) (ttl : Int)
    (henc : h.enc v = none) :
    h.setToKey st k v ttl = (st, some .marshal) := by
  unfold Handler.setToKey
  rw [henc]

theorem getFromKey_found (k : String) (b : B) (d : Int)
    (hfg : k ∉ st.failGet) (hl : lookupA st.store k = some (b, d)) :
    h.getFromKey st k = (emit st (.redisGet k), h.dec b) := by
  unfold Handler.getFromKey
  simp [hfg, hl]

@[simp] theorem shouldRefreshNow_emit (k : String) (e : Ev) :
    h.shouldRefreshNow (emit st e) k = h.shouldRefreshNow st k := rfl

/-- `fullKey` distributes over user-key concatenation: appending a suffix to
the user key appends it to the full key. -/
theorem fullKey_append (u s : String) :
    h.fullKey (u ++ s) = h.fullKey u ++ s := by
  unfold Handler.fullKey
  by_cases hp : h.cfg.pfx = "" <;> simp [hp, String.append_assoc]

/-- Whatever `Set` does, it only appends to the trace. -/
theorem Set_trace_extends (co : CallOpts) (v : T) :
    ∃ t, (h.Set st key co v).1.trace = st.trace ++ t := by
  unfold Handler.Set
  cases h.enc v with
  | none => exact ⟨[], by simp⟩
  | some b =>
    by_cases hfs : h.fullKey key ∈ st.failSet
    · simp only [hfs, if_pos]
      exact ⟨[], by simp⟩
    · simp only [hfs, if_neg, not_false_iff]
      exact ⟨[Ev.redisSet (h.fullKey key)] ++
        (if h.cfg.refreshCooldown ≤ 0 then []
         else [Ev.ledgerSet (h.fullKey key)]),
        by simp [setLastRefreshNow_trace, emit]⟩

end Characterizations

/-!
 ## Claims
-/

/-- Claim C3: for every full key and at every instant, at most one task
within the process holds the keyed-mutex lock for that key — along every
execution of the `keyedMutex` protocol from an all-idle start, the number of
tasks inside the critical section of any key is at most 1. -/
theorem C3_keyed_mutex_exclusive (n : Nat) (s : LockSys)
    (hr : LReach (allIdle n) s) (k : String) :
    countCrit s.tasks k ≤ 1 :=
  (lockInv_reach (lockInv_allIdle n) hr k).1

/-- Witness for C3: a concrete reachable state of two tasks in which one has
acquired the lock for key `"k"`. -/
theorem C3_keyed_mutex_exclusive_witness :
    countCrit [TaskSt.critical "k", TaskSt.idle] "k" ≤ 1 :=
  C3_keyed_mutex_exclusive 2
    ⟨[] ++ TaskSt.critical "k" :: [TaskSt.idle],
      updChan (fun _ => false) "k" true⟩
    (LReach.step LReach.refl
      (LStep.acquire [] [TaskSt.idle] "k" (fun _ => false) rfl)) "k"

/-- Claim C8: `shouldRefreshNow fullKey` is true iff the configured cooldown
is non-positive, or no prior refresh is recorded for the key, or the elapsed
time since the recorded refresh is at least the cooldown; and
`setLastRefreshNow fullKey` is a no-op when the cooldown is non-positive and
otherwise records the current time for the key. -/
theorem C8_cooldown_bookkeeping {T B : Type} (h : Handler T B)
    (st : HState B) (k : String) :
    (h.shouldRefreshNow st k = true ↔
      h.cfg.refreshCooldown ≤ 0 ∨ lookupA st.ledger k = none ∨
        ∃ last, lookupA st.ledger k = some last ∧
          st.now - last ≥ h.cfg.refreshCooldown) ∧
    (h.cfg.refreshCooldown ≤ 0 → h.setLastRefreshNow st k = st) ∧
    (0 < h.cfg.refreshCooldown →
      h.setLastRefreshNow st k =
        { st with ledger := insertA st.ledger k st.now,
                  trace := st.trace ++ [Ev.ledgerSet k] }) := by
  refine ⟨?_, ?_, ?_⟩
  · unfold Handler.shouldRefreshNow
    by_cases hc : h.cfg.refreshCooldown ≤ 0
    · simp [hc]
    · simp only [if_neg hc]
      cases hl : lookupA st.ledger k with
      | none => simp [hl, hc]
      | some last => simp [hl, hc, ge_iff_le]
  · intro hc
    simp [Handler.setLastRefreshNow, hc]
  · intro hc
    simp [Handler.setLastRefreshNow, emit, not_le.mpr hc]

/-- Witness for C8 at a concrete handler and ledger (cooldown 5, one entry
recorded at time 3, current time 10). -/
theorem C8_cooldown_bookkeeping_witness :
    Handler.shouldRefreshNow (natHandler 5)
      { ledger := [("k", 3)], now := 10 } "k" = true ∧
    Handler.setLastRefreshNow (natHandler 5)
      { ledger := [("k", 3)], now := 10 } "k" =
      { ledger := insertA [("k", 3)] "k" 10, now := 10,
        trace := [Ev.ledgerSet "k"] } :=
  ⟨(C8_cooldown_bookkeeping (natHandler 5)
      { ledger := [("k", 3)], now := 10 } "k").1.mpr
      (Or.inr (Or.inr ⟨3, by decide, by decide⟩)),
   (C8_cooldown_bookkeeping (natHandler 5)
      { ledger := [("k", 3)], now := 10 } "k").2.2 (by decide)⟩

/-- Claim C6: the BestEffort miss path never returns an error — a failing
generator yields the zero value of `T` with `fromCache = false` and
`cachedAt = now` and no error, and a successful generator yields the
generated value with no error regardless of the backend write outcome. -/
theorem C6_best_effort_no_error {T B : Type} (h : Handler T B)
    (st : HState B) (key : String) (ttl : Int) (gen : Option T) :
    (h.missBestEffort st key ttl gen).2.2 = none ∧
    (gen = none →
      (h.missBestEffort st key ttl gen).2.1 = ⟨h.zero, false, st.now⟩) ∧
    (∀ v, gen = some v →
      (h.missBestEffort st key ttl gen).2.1 = ⟨v, false, st.now⟩) := by
  cases gen <;> simp [Handler.missBestEffort, emit]

/-- Witness for C6: a concrete successful generation under BestEffort. -/
theorem C6_best_effort_no_error_witness :
    (Handler.missBestEffort (natHandler 0) {} "k" 5 (some 7)).2.1 =
      ⟨7, false, 0⟩ :=
  (C6_best_effort_no_error (natHandler 0) {} "k" 5 (some 7)).2.2 7 rfl

/-- Claim C7: under CooperativeRefresh, when the cooperative timeout expires
before the per-key lock is acquired (the `timeoutWins = true` outcome of the
race, which with timeout 0 is the already-expired context), the handler calls
the generator directly and returns its result with the cache state (store and
ledger) completely untouched. -/
theorem C7_cooperative_timeout_direct {T B : Type} (h : Handler T B)
    (st : HState B) (key : String) (ttl : Int) (gen : Option T) :
    (∀ v, gen = some v →
      h.missCooperativeRefresh st key ttl gen true =
        ({ st with trace := st.trace ++ [Ev.genCall] },
          ⟨v, false, st.now⟩, none)) ∧
    (gen = none →
      h.missCooperativeRefresh st key ttl gen true =
        ({ st with trace := st.trace ++ [Ev.genCall] },
          ⟨h.zero, false, 0⟩, some .generator)) := by
  cases gen <;> simp [Handler.missCooperativeRefresh, emit]

/-- Witness for C7: a concrete timed-out cooperative miss generates directly
and writes nothing. -/
theorem C7_cooperative_timeout_direct_witness :
    Handler.missCooperativeRefresh (natHandler 0) {} "k" 5 (some 7) true =
      ({ trace := [Ev.genCall] }, ⟨7, false, 0⟩, none) :=
  (C7_cooperative_timeout_direct (natHandler 0) {} "k" 5 (some 7)).1 7 rfl

/-- Claim C5: a successful `Set key v` followed immediately by `Get key`
(same instant, so no TTL expiry) returns `v` with `fromCache = true`.  The
hypotheses `henc`/`hdec` are the serializer contract the spec imposes on the
pluggable encoder (decode after encode is the identity on representable
values); the remaining hypotheses say the backend accepts both operations. -/
theorem C5_set_then_get {T B : Type} (h : Handler T B) (st : HState B)
    (key : String) (co : CallOpts) (v : T) (b : B)
    (henc : h.enc v = some b) (hdec : h.dec b = some v)
    (hfs : h.fullKey key ∉ st.failSet) (hfg : h.fullKey key ∉ st.failGet) :
    (h.Set st key co v).2 = none ∧
    (h.Get (h.Set st key co v).1 key).2 = (⟨v, true, st.now⟩, none) := by
  constructor
  · unfold Handler.Set
    rw [henc]
    simp [hfs]
  · unfold Handler.Set
    rw [henc]
    simp only [if_neg hfs]
    unfold Handler.Get
    simp [hdec, hfg]

/-- Witness for C5: storing 7 under `"a"` and reading it back. -/
theorem C5_set_then_get_witness :
    (Handler.Set (natHandler 0) {} "a" {} 7).2 = none ∧
    (Handler.Get (natHandler 0) (Handler.Set (natHandler 0) {} "a" {} 7).1
        "a").2 = (⟨7, true, 0⟩, none) :=
  C5_set_then_get (natHandler 0) {} "a" {} 7 (List.replicate 7 ()) rfl
    (by simp [natHandler]) (by simp) (by simp)

/-- Characterization of the ProbabilisticRefresh hit branch when the
`@created` stamp is present. -/
theorem handleHitRefresh_prob_char {T B : Type} (h : Handler T B)
    (st : HState B) (key : String) (ttl : Int) (co : CallOpts) (r : Rat)
    (created : Int)
    (hl : lookupA st.ledger (h.fullKey key ++ "@created") = some created) :
    h.handleHitRefresh st key ttl .probabilisticRefresh co r =
      (if r < ((st.now - created : Int) : Rat) / (ttl : Rat) *
          (if co.probabilisticRefreshBeta ≤ 0 then
            h.cfg.defaultProbabilisticBeta
          else co.probabilisticRefreshBeta)
       then emit st (.spawnRefresh (h.fullKey key)) else st) := by
  by_cases hb : co.probabilisticRefreshBeta ≤ 0 <;>
    simp [Handler.handleHitRefresh, Handler.shouldProbabilisticRefresh, hl,
      hb]

/-- Claim C9: on a hit under ProbabilisticRefresh, an absent `@created`
stamp spawns nothing; with the stamp present a background refresh is spawned
exactly when the uniform draw `r` satisfies
`r < (elapsed / ttl) * effectiveBeta`; and once the stamp is present, for
`effectiveBeta` at least `ttl / elapsed` (the saturation regime `p ≥ 1`)
every draw `r ∈ [0, 1)` spawns the refresh. -/
theorem C9_probabilistic_hit {T B : Type} (h : Handler T B) (st : HState B)
    (key : String) (ttl : Int) (co : CallOpts) (r : Rat) :
    (lookupA st.ledger (h.fullKey key ++ "@created") = none →
      h.handleHitRefresh st key ttl .probabilisticRefresh co r = st) ∧
    (∀ created,
      lookupA st.ledger (h.fullKey key ++ "@created") = some created →
      h.handleHitRefresh st key ttl .probabilisticRefresh co r =
        (if r < ((st.now - created : Int) : Rat) / (ttl : Rat) *
            (if co.probabilisticRefreshBeta ≤ 0 then
              h.cfg.defaultProbabilisticBeta
            else co.probabilisticRefreshBeta)
         then emit st (.spawnRefresh (h.fullKey key)) else st)) ∧
    (∀ created,
      lookupA st.ledger (h.fullKey key ++ "@created") = some created →
      0 < st.now - created → 0 < ttl → 0 ≤ r → r < 1 →
      (ttl : Rat) / ((st.now - created : Int) : Rat) ≤
        (if co.probabilisticRefreshBeta ≤ 0 then
          h.cfg.defaultProbabilisticBeta
        else co.probabilisticRefreshBeta) →
      h.handleHitRefresh st key ttl .probabilisticRefresh co r =
        emit st (.spawnRefresh (h.fullKey key))) := by
  refine ⟨?_, ?_, ?_⟩
  · intro hl
    simp [Handler.handleHitRefresh, Handler.shouldProbabilisticRefresh, hl]
  · intro created hl
    exact handleHitRefresh_prob_char h st key ttl co r created hl
  · intro created hl he httl hr0 hr1 hbeta
    have he' : (0 : Rat) < ((st.now - created : Int) : Rat) := by
      exact_mod_cast he
    have httl' : (0 : Rat) < ((ttl : Int) : Rat) := by exact_mod_cast httl
    have hene : ((st.now - created : Int) : Rat) ≠ 0 := ne_of_gt he'
    have httlne : ((ttl : Int) : Rat) ≠ 0 := ne_of_gt httl'
    have hcond : r < ((st.now - created : Int) : Rat) / (ttl : Rat) *
        (if co.probabilisticRefreshBeta ≤ 0 then
          h.cfg.defaultProbabilisticBeta
        else co.probabilisticRefreshBeta) := by
      have hratio : (0 : Rat) <
          ((st.now - created : Int) : Rat) / (ttl : Rat) :=
        div_pos he' httl'
      calc r < 1 := hr1
        _ = ((st.now - created : Int) : Rat) / (ttl : Rat) *
              ((ttl : Rat) / ((st.now - created : Int) : Rat)) := by
            field_simp
            exact (div_self (by push_cast at hene; exact hene)).symm
        _ ≤ _ := mul_le_mul_of_nonneg_left hbeta (le_of_lt hratio)
    rw [handleHitRefresh_prob_char h st key ttl co r created hl,
      if_pos hcond]

/-- Witness for C9: stamp created at time 4, now 8, ttl 2, call beta 10
(so `p = 2 * 10 = 20 ≥ 1`), draw `r = 9/10`: the refresh is spawned. -/
theorem C9_probabilistic_hit_witness :
    Handler.handleHitRefresh (natHandler 0)
      { ledger := [("k@created", 4)], now := 8 } "k" 2 .probabilisticRefresh
      { probabilisticRefreshBeta := 10 } ((9 : Rat) / 10) =
      emit { ledger := [("k@created", 4)], now := 8 }
        (.spawnRefresh "k") :=
  (C9_probabilistic_hit (natHandler 0)
      { ledger := [("k@created", 4)], now := 8 } "k" 2
      { probabilisticRefreshBeta := 10 } ((9 : Rat) / 10)).2.2 4
    (by simp [natHandler, Handler.fullKey, lookupA]) (by norm_num)
    (by norm_num) (by norm_num) (by norm_num) (by norm_num)

/-- Claim C4 (amended): under RefreshAhead, when the effective refresh-ahead
threshold (call option, falling back to the handler default when
non-positive) is 0 AND the effective TTL is positive, a cache hit never
spawns the refresh-ahead background refresh: the hit handler only performs
the TTL probe.  (The positivity proviso is forced by the counterexample
below: with a non-positive effective TTL the remaining ratio is negative and
the `ratio ≤ 0` comparison fires.) -/
theorem C4_refresh_ahead_zero_threshold {T B : Type} (h : Handler T B)
    (st : HState B) (key : String) (ttl : Int) (co : CallOpts) (r : Rat)
    (hthr : (if co.refreshAheadThreshold ≤ 0 then
        h.cfg.defaultRefreshAheadThreshold
      else co.refreshAheadThreshold) = 0)
    (httl : 0 < ttl) :
    h.handleHitRefresh st key ttl .refreshAhead co r =
      emit st (.redisTTLProbe (h.fullKey key)) := by
  have hsra : h.shouldRefreshAhead st (h.fullKey key) ttl
      (if co.refreshAheadThreshold ≤ 0 then
        h.cfg.defaultRefreshAheadThreshold
      else co.refreshAheadThreshold) =
      (emit st (.redisTTLProbe (h.fullKey key)), false) := by
    rw [hthr]
    unfold Handler.shouldRefreshAhead
    by_cases hft : h.fullKey key ∈ st.failTTL
    · simp [hft]
    · simp only [if_neg hft]
      cases hl : lookupA st.store (h.fullKey key) with
      | none => simp [hl]
      | some bd =>
        obtain ⟨b, d⟩ := bd
        by_cases hrem : d ≤ 0
        · simp [hl, hrem]
        · have hpos : (0 : Rat) < (d : Rat) / (ttl : Rat) :=
            div_pos (by exact_mod_cast not_le.mp hrem)
              (by exact_mod_cast httl)
          simp [hl, hrem, not_le.mpr hpos]
  simp [Handler.handleHitRefresh, hsra]

/-- Witness for C4 (amended): threshold 0 everywhere, positive TTL, key
present with remaining TTL 50 — no refresh is spawned. -/
theorem C4_refresh_ahead_zero_threshold_witness :
    Handler.handleHitRefresh
      { cfg := { defaultRefreshAheadThreshold := 0 }
        enc := fun n => some (List.replicate n ())
        dec := fun l => some l.length
        zero := (0 : Nat) }
      { store := [("e", (List.replicate 7 (), 50))] } "e" 10 .refreshAhead
      {} 0 =
      emit { store := [("e", (List.replicate 7 (), 50))] }
        (.redisTTLProbe "e") :=
  C4_refresh_ahead_zero_threshold
    { cfg := { defaultRefreshAheadThreshold := 0 }
      enc := fun n => some (List.replicate n ())
      dec := fun l => some l.length
      zero := (0 : Nat) }
    { store := [("e", (List.replicate 7 (), 50))] } "e" 10 {} 0
    (by norm_num) (by norm_num)

/-- Counterexample to C4 as stated: with the effective threshold 0 but a
NEGATIVE effective TTL (handler configured with `WithDefaultTTL(-3)` and
`WithRefreshAheadThreshold(0)`, both accepted by the option setters, and no
per-call TTL), a hit on a key whose remaining TTL is 50 computes
`remainingRatio = 50 / -3 ≤ 0` and DOES spawn the refresh-ahead background
refresh. -/
theorem C4_refresh_ahead_zero_threshold_cex :
    Ev.spawnRefresh "e" ∈
      (Handler.GetOrRefresh
        { cfg := { defaultTTL := -3, defaultMissPolicy := .refreshAhead,
                   defaultRefreshAheadThreshold := 0 }
          enc := fun n => some (List.replicate n ())
          dec := fun l => some l.length
          zero := (0 : Nat) }
        { store := [("e", (List.replicate 7 (), 50))] } "e" (some 1) {} 0
        false).1.trace := by
  have hrat : ((50 : Rat) / (-3 : Rat) ≤ 0) := by norm_num
  simp [Handler.GetOrRefresh, Handler.Get, Handler.handleHitRefresh,
    Handler.shouldRefreshAhead, Handler.fullKey, lookupA, emit, hrat]

/-- Claim C2: under SyncWriteThenReturn the handler (0) first acquires the
per-key lock; (1) re-reads the key and, if now present, returns the cached
result without invoking the generator or writing; (2) otherwise, on
generator success and backend-write success, returns the generated value
with `fromCache = false` after writing it with the effective TTL; (3) if the
backend write fails, surfaces the error and does not return the generated
value; (4) if the generator fails, surfaces the wrapped generator error. -/
theorem C2_sync_write_then_return {T B : Type} (h : Handler T B)
    (st : HState B) (key : String) (ttl : Int) (gen : Option T)
    (htr : st.trace = []) :
    (∃ t, (h.missSyncWriteThenReturn st key ttl gen).1.trace =
        Ev.lock (h.fullKey key) :: t) ∧
    (∀ b d v, h.fullKey key ∉ st.failGet →
      lookupA st.store (h.fullKey key) = some (b, d) → h.dec b = some v →
      h.missSyncWriteThenReturn st key ttl gen =
        ({ st with trace := [Ev.lock (h.fullKey key),
            Ev.redisGet (h.fullKey key), Ev.unlock (h.fullKey key)] },
          ⟨v, true, st.now⟩, none)) ∧
    (∀ v b, h.fullKey key ∉ st.failGet →
      lookupA st.store (h.fullKey key) = none → gen = some v →
      h.enc v = some b → h.fullKey key ∉ st.failSet →
      (h.missSyncWriteThenReturn st key ttl gen).2.2 = none ∧
      (h.missSyncWriteThenReturn st key ttl gen).2.1 = ⟨v, false, st.now⟩ ∧
      lookupA (h.missSyncWriteThenReturn st key ttl gen).1.store
          (h.fullKey key) =
        some (b, if ttl ≤ 0 then h.cfg.defaultTTL else ttl)) ∧
    (∀ v b, h.fullKey key ∉ st.failGet →
      lookupA st.store (h.fullKey key) = none → gen = some v →
      h.enc v = some b → h.fullKey key ∈ st.failSet →
      h.missSyncWriteThenReturn st key ttl gen =
        ({ st with trace := [Ev.lock (h.fullKey key),
            Ev.redisGet (h.fullKey key), Ev.genCall,
            Ev.unlock (h.fullKey key)] },
          ⟨h.zero, false, 0⟩, some .redisSet)) ∧
    (h.fullKey key ∉ st.failGet → lookupA st.store (h.fullKey key) = none →
      gen = none →
      h.missSyncWriteThenReturn st key ttl gen =
        ({ st with trace := [Ev.lock (h.fullKey key),
            Ev.redisGet (h.fullKey key), Ev.genCall,
            Ev.unlock (h.fullKey key)] },
          ⟨h.zero, false, 0⟩, some .generator)) := by
  refine ⟨?_, ?_, ?_, ?_, ?_⟩
  · -- (0) the lock event opens the trace in every branch
    unfold Handler.missSyncWriteThenReturn
    dsimp only
    by_cases hfg : h.fullKey key ∈ st.failGet
    · rw [Get_transport_fail h (emit st (.lock (h.fullKey key))) key
        (by simpa using hfg)]
      exact ⟨[Ev.redisGet (h.fullKey key), Ev.unlock (h.fullKey key)],
        by simp [emit, htr]⟩
    · cases hl : lookupA st.store (h.fullKey key) with
      | some bd =>
        obtain ⟨b, d⟩ := bd
        cases hdec : h.dec b with
        | some v =>
          rw [Get_hit h (emit st (.lock (h.fullKey key))) key b d v
            (by simpa using hfg) (by simpa using hl) hdec]
          exact ⟨[Ev.redisGet (h.fullKey key), Ev.unlock (h.fullKey key)],
            by simp [emit, htr]⟩
        | none =>
          rw [Get_decode_fail h (emit st (.lock (h.fullKey key))) key b d
            (by simpa using hfg) (by simpa using hl) hdec]
          exact ⟨[Ev.redisGet (h.fullKey key), Ev.unlock (h.fullKey key)],
            by simp [emit, htr]⟩
      | none =>
        rw [Get_miss h (emit st (.lock (h.fullKey key))) key
          (by simpa using hfg) (by simpa using hl)]
        dsimp only
        cases gen with
        | none =>
          exact ⟨[Ev.redisGet (h.fullKey key), Ev.genCall,
            Ev.unlock (h.fullKey key)], by simp [emit, htr]⟩
        | some v =>
          dsimp only
          cases henc : h.enc v with
          | none =>
            rw [Set_enc_fail h _ key { ttl := ttl } v henc]
            exact ⟨[Ev.redisGet (h.fullKey key), Ev.genCall,
              Ev.unlock (h.fullKey key)], by simp [emit, htr]⟩
          | some b =>
            by_cases hfs : h.fullKey key ∈ st.failSet
            · rw [Set_fail h _ key { ttl := ttl } v b henc
                (by simpa using hfs)]
              exact ⟨[Ev.redisGet (h.fullKey key), Ev.genCall,
                Ev.unlock (h.fullKey key)], by simp [emit, htr]⟩
            · rw [Set_ok h _ key { ttl := ttl } v b henc
                (by simpa using hfs)]
              exact ⟨[Ev.redisGet (h.fullKey key), Ev.genCall,
                  Ev.redisSet (h.fullKey key)] ++
                  (if h.cfg.refreshCooldown ≤ 0 then []
                   else [Ev.ledgerSet (h.fullKey key)]) ++
                  [Ev.unlock (h.fullKey key)],
                by simp [emit, htr, setLastRefreshNow_trace]⟩
  · -- (1) double-check hit
    intro b d v hfg hl hdec
    unfold Handler.missSyncWriteThenReturn
    dsimp only
    rw [Get_hit h (emit st (.lock (h.fullKey key))) key b d v
      (by simpa using hfg) (by simpa using hl) hdec]
    simp [emit, htr]
  · -- (2) miss, generator and write both succeed
    intro v b hfg hl hg henc hfs
    subst hg
    have hred : h.missSyncWriteThenReturn st key ttl (some v) =
        (emit (h.Set (emit (emit (emit st (.lock (h.fullKey key)))
            (.redisGet (h.fullKey key))) .genCall) key { ttl := ttl }
            v).1 (.unlock (h.fullKey key)),
          ⟨v, false, st.now⟩, none) := by
      unfold Handler.missSyncWriteThenReturn
      dsimp only
      rw [Get_miss h (emit st (.lock (h.fullKey key))) key
        (by simpa using hfg) (by simpa using hl)]
      dsimp only
      rw [Set_ok h _ key { ttl := ttl } v b henc (by simpa using hfs)]
      simp [emit]
    rw [hred]
    refine ⟨rfl, rfl, ?_⟩
    rw [Set_ok h _ key { ttl := ttl } v b henc (by simpa using hfs)]
    simp
  · -- (3) miss, write fails: error surfaced, generated value not returned
    intro v b hfg hl hg henc hfs
    subst hg
    unfold Handler.missSyncWriteThenReturn
    dsimp only
    rw [Get_miss h (emit st (.lock (h.fullKey key))) key
      (by simpa using hfg) (by simpa using hl)]
    dsimp only
    rw [Set_fail h _ key { ttl := ttl } v b henc (by simpa using hfs)]
    simp [emit, htr]
  · -- (4) miss, generator fails
    intro hfg hl hg
    subst hg
    unfold Handler.missSyncWriteThenReturn
    dsimp only
    rw [Get_miss h (emit st (.lock (h.fullKey key))) key
      (by simpa using hfg) (by simpa using hl)]
    simp [emit, htr]

/-- Witness for C2: a concrete miss with a successful generator and backend
write returns the generated value, not from cache, and stores it with the
effective TTL. -/
theorem C2_sync_write_then_return_witness :
    (Handler.missSyncWriteThenReturn (natHandler 0) {} "a" 5 (some 7)).2.2 =
      none ∧
    (Handler.missSyncWriteThenReturn (natHandler 0) {} "a" 5 (some 7)).2.1 =
      ⟨7, false, 0⟩ ∧
    lookupA
      (Handler.missSyncWriteThenReturn (natHandler 0) {} "a" 5
        (some 7)).1.store "a" = some (List.replicate 7 (), 5) :=
  (C2_sync_write_then_return (natHandler 0) {} "a" 5 (some 7) rfl).2.2.1 7
    (List.replicate 7 ()) (by simp) rfl rfl rfl (by simp)

/-- Claim C1 (amended): with a positive refresh cooldown configured (so
ledger updates are enabled at all), every successful backend write performed
by `Set`, by the sync-miss path, by the background miss-write task, and by
the background refresh task is coupled with a refresh-ledger update for the
written key; in the stale-refresh background task the main-key write is
coupled as well, but the stale-companion write (which goes through
`setToKey`) encodes and writes with a TTL WITHOUT updating the refresh
ledger — the sole exception forced by the counterexample below. -/
theorem C1_write_pathway_amended {T B : Type} (h : Handler T B)
    (st : HState B) (key : String) (ttl : Int) (co : CallOpts) (v : T)
    (gen : Option T) (lockOk : Bool)
    (hcool : 0 < h.cfg.refreshCooldown) (htr : st.trace = []) :
    ledgerCoupled (h.Set st key co v).1 ∧
    ledgerCoupled (h.missSyncWriteThenReturn st key ttl gen).1 ∧
    ledgerCoupled (h.spawnBackgroundMissWrite st key ttl v lockOk) ∧
    ledgerCoupled (h.spawnBackgroundRefresh st key ttl gen lockOk) ∧
    (∀ k,
      Ev.redisSet k ∈ (h.spawnStaleRefresh st key ttl gen lockOk).trace →
      k = h.fullKey (key ++ ":stale") ∨
        Ev.ledgerSet k ∈
          (h.spawnStaleRefresh st key ttl gen lockOk).trace) := by
  have hc' : ¬ h.cfg.refreshCooldown ≤ 0 := not_le.mpr hcool
  refine ⟨?_, ?_, ?_, ?_, ?_⟩
  · -- Set
    cases henc : h.enc v with
    | none =>
      rw [Set_enc_fail h st key co v henc]
      intro k hk
      simp [htr] at hk
    | some b =>
      by_cases hfs : h.fullKey key ∈ st.failSet
      · rw [Set_fail h st key co v b henc hfs]
        intro k hk
        simp [htr] at hk
      · rw [Set_ok h st key co v b henc hfs]
        intro k hk
        simp [setLastRefreshNow_trace, hc', htr] at hk ⊢
        simp [hk]
  · -- missSyncWriteThenReturn
    unfold Handler.missSyncWriteThenReturn
    dsimp only
    by_cases hfg : h.fullKey key ∈ st.failGet
    · rw [Get_transport_fail h (emit st (.lock (h.fullKey key))) key
        (by simpa using hfg)]
      intro k hk
      simp [emit, htr] at hk
    · cases hl : lookupA st.store (h.fullKey key) with
      | some bd =>
        obtain ⟨b, d⟩ := bd
        cases hdec : h.dec b with
        | some w =>
          rw [Get_hit h (emit st (.lock (h.fullKey key))) key b d w
            (by simpa using hfg) (by simpa using hl) hdec]
          intro k hk
          simp [emit, htr] at hk
        | none =>
          rw [Get_decode_fail h (emit st (.lock (h.fullKey key))) key b d
            (by simpa using hfg) (by simpa using hl) hdec]
          intro k hk
          simp [emit, htr] at hk
      | none =>
        rw [Get_miss h (emit st (.lock (h.fullKey key))) key
          (by simpa using hfg) (by simpa using hl)]
        dsimp only
        cases gen with
        | none =>
          intro k hk
          simp [emit, htr] at hk
        | some w =>
          dsimp only
          cases henc : h.enc w with
          | none =>
            rw [Set_enc_fail h _ key { ttl := ttl } w henc]
            intro k hk
            simp [emit, htr] at hk
          | some b =>
            by_cases hfs : h.fullKey key ∈ st.failSet
            · rw [Set_fail h _ key { ttl := ttl } w b henc
                (by simpa using hfs)]
              intro k hk
              simp [emit, htr] at hk
            · rw [Set_ok h _ key { ttl := ttl } w b henc
                (by simpa using hfs)]
              intro k hk
              simp [setLastRefreshNow_trace, hc', emit, htr] at hk ⊢
              simp [hk]
  · -- spawnBackgroundMissWrite
    unfold Handler.spawnBackgroundMissWrite
    dsimp only
    cases lockOk with
    | false =>
      intro k hk
      simp [emit, htr] at hk
    | true =>
      by_cases hfe : h.fullKey key ∈ st.failExists
      · intro k hk
        simp [hfe, emit, htr] at hk
      · cases hl : lookupA st.store (h.fullKey key) with
        | some bd =>
          intro k hk
          simp [hfe, hl, emit, htr] at hk
        | none =>
          simp only [hfe, hl, if_neg, not_false_iff]
          cases henc : h.enc v with
          | none =>
            rw [Set_enc_fail h _ key { ttl := ttl } v henc]
            intro k hk
            simp [emit, htr] at hk
          | some b =>
            by_cases hfs : h.fullKey key ∈ st.failSet
            · rw [Set_fail h _ key { ttl := ttl } v b henc
                (by simpa using hfs)]
              intro k hk
              simp [emit, htr] at hk
            · rw [Set_ok h _ key { ttl := ttl } v b henc
                (by simpa using hfs)]
              intro k hk
              simp [setLastRefreshNow_trace, hc', emit, htr] at hk ⊢
              simp [hk]
  · -- spawnBackgroundRefresh
    unfold Handler.spawnBackgroundRefresh
    dsimp only
    cases lockOk with
    | false =>
      intro k hk
      simp [emit, htr] at hk
    | true =>
      by_cases hsr : h.shouldRefreshNow st (h.fullKey key)
      · simp only [shouldRefreshNow_emit, hsr]
        cases gen with
        | none =>
          intro k hk
          simp [emit, htr] at hk
        | some w =>
          dsimp only
          cases henc : h.enc w with
          | none =>
            rw [Set_enc_fail h _ key { ttl := ttl } w henc]
            intro k hk
            simp [emit, htr] at hk
          | some b =>
            by_cases hfs : h.fullKey key ∈ st.failSet
            · rw [Set_fail h _ key { ttl := ttl } w b henc
                (by simpa using hfs)]
              intro k hk
              simp [emit, htr] at hk
            · rw [Set_ok h _ key { ttl := ttl } w b henc
                (by simpa using hfs)]
              intro k hk
              simp [setLastRefreshNow_trace, hc', emit, htr] at hk ⊢
              simp [hk]
      · simp only [shouldRefreshNow_emit, hsr]
        intro k hk
        simp [emit, htr] at hk
  · -- spawnStaleRefresh: the stale-companion write is the exception
    unfold Handler.spawnStaleRefresh
    dsimp only
    cases lockOk with
    | false =>
      intro k hk
      simp [emit, htr] at hk
    | true =>
      cases gen with
      | none =>
        intro k hk
        simp [emit, htr] at hk
      | some w =>
        dsimp only
        cases henc : h.enc w with
        | none =>
          rw [Set_enc_fail h _ key { ttl := ttl } w henc,
            setToKey_enc_fail h _ (h.fullKey (key ++ ":stale")) w
              h.cfg.staleDataTTL henc]
          intro k hk
          simp [emit, htr] at hk
        | some b =>
          by_cases hfs : h.fullKey key ∈ st.failSet
          · rw [Set_fail h _ key { ttl := ttl } w b henc
              (by simpa using hfs)]
            by_cases hfs2 : h.fullKey (key ++ ":stale") ∈ st.failSet
            · rw [setToKey_fail h _ (h.fullKey (key ++ ":stale")) w b
                h.cfg.staleDataTTL henc (by simpa using hfs2)]
              intro k hk
              simp [emit, htr] at hk
            · rw [setToKey_ok h _ (h.fullKey (key ++ ":stale")) w b
                h.cfg.staleDataTTL henc (by simpa using hfs2)]
              intro k hk
              simp [emit, htr] at hk ⊢
              tauto
          · rw [Set_ok h _ key { ttl := ttl } w b henc
              (by simpa using hfs)]
            by_cases hfs2 : h.fullKey (key ++ ":stale") ∈ st.failSet
            · rw [setToKey_fail h _ (h.fullKey (key ++ ":stale")) w b
                h.cfg.staleDataTTL henc (by simpa using hfs2)]
              intro k hk
              simp [setLastRefreshNow_trace, hc', emit, htr] at hk ⊢
              tauto
            · rw [setToKey_ok h _ (h.fullKey (key ++ ":stale")) w b
                h.cfg.staleDataTTL henc (by simpa using hfs2)]
              intro k hk
              simp [setLastRefreshNow_trace, hc', emit, htr] at hk ⊢
              tauto

/-- Witness for C1 (amended): a concrete `Set` under a positive cooldown is
ledger-coupled. -/
theorem C1_write_pathway_amended_witness :
    ledgerCoupled (Handler.Set (natHandler 5) {} "a" {} 7).1 :=
  (C1_write_pathway_amended (natHandler 5) {} "a" 10 {} 7 (some 7) true
    (by decide) rfl).1

/-- Counterexample to C1 as stated: in a concrete run of the stale-refresh
background task (cooldown 5, key `"a"`, generator yielding 7, try-lock
granted), the stale-companion key is successfully written to the backend but
no refresh-ledger update for it ever occurs — the write bypassed the single
`Set` pathway. -/
theorem C1_write_pathway_cex :
    Ev.redisSet "a:stale" ∈
      (Handler.spawnStaleRefresh (natHandler 5) {} "a" 10 (some 7)
        true).trace ∧
    Ev.ledgerSet "a:stale" ∉
      (Handler.spawnStaleRefresh (natHandler 5) {} "a" 10 (some 7)
        true).trace := by
  decide

/-- Claim C10: `fullKey` turns the user key `key ++ ":stale"` into exactly
the stale companion key of `key` (`fullKey key ++ ":stale"`), so a user key
literally named `key ++ ":stale"` shares its backend entry with the stale
companion: after a successful `Set (key ++ ":stale") v`, a `GetOrRefresh key`
that misses under StaleWhileRevalidate returns `v` as stale data with
`fromCache = true` and spawns the stale-refresh task. -/
theorem C10_stale_key_aliasing {T B : Type} (h : Handler T B) :
    (∀ key, h.fullKey (key ++ ":stale") = h.fullKey key ++ ":stale") ∧
    (∀ (st : HState B) (key : String) (v : T) (b : B) (co : CallOpts)
      (gen : Option T) (r : Rat) (tw : Bool),
      h.enc v = some b → h.dec b = some v →
      h.fullKey (key ++ ":stale") ∉ st.failSet →
      h.fullKey key ∉ st.failGet →
      h.fullKey (key ++ ":stale") ∉ st.failGet →
      lookupA st.store (h.fullKey key) = none →
      (h.GetOrRefresh (h.Set st (key ++ ":stale") co v).1 key gen
          { overrideMissPolicy := some .staleWhileRevalidate } r tw).2.1 =
        ⟨v, true, st.now⟩ ∧
      (h.GetOrRefresh (h.Set st (key ++ ":stale") co v).1 key gen
          { overrideMissPolicy := some .staleWhileRevalidate } r tw).2.2 =
        none ∧
      Ev.spawnStale (h.fullKey key) ∈
        (h.GetOrRefresh (h.Set st (key ++ ":stale") co v).1 key gen
          { overrideMissPolicy := some .staleWhileRevalidate } r
          tw).1.trace) := by
  constructor
  · intro key
    exact fullKey_append h key ":stale"
  · intro st key v b co gen r tw henc hdec hfs hfg hfg2 hl
    have hkeyne : h.fullKey key ≠ h.fullKey (key ++ ":stale") := by
      rw [fullKey_append h key ":stale"]
      exact ne_self_append_of_ne_empty _ _ (by decide)
    have hlook : lookupA (insertA st.store (h.fullKey (key ++ ":stale"))
        (b, if co.ttl ≤ 0 then h.cfg.defaultTTL else co.ttl))
        (h.fullKey key) = none := by
      rw [lookupA_insertA_ne _ _ _ _ (Ne.symm hkeyne)]
      exact hl
    rw [Set_ok h st (key ++ ":stale") co v b henc hfs]
    unfold Handler.GetOrRefresh
    dsimp only
    rw [Get_miss h _ key (by simpa using hfg) (by simpa using hlook)]
    dsimp only
    unfold Handler.missStaleWhileRevalidate
    dsimp only
    rw [getFromKey_found h _ (h.fullKey (key ++ ":stale")) b
      (if co.ttl ≤ 0 then h.cfg.defaultTTL else co.ttl)
      (by simpa using hfg2) (by simp), hdec]
    dsimp only
    refine ⟨by simp, rfl, ?_⟩
    simp

/-- Witness for C10: writing 7 under the user key `"a" ++ ":stale"`, then a
StaleWhileRevalidate miss on `"a"` serves it as stale data. -/
theorem C10_stale_key_aliasing_witness :
    (Handler.GetOrRefresh (natHandler 0)
        (Handler.Set (natHandler 0) {} ("a" ++ ":stale") {} 7).1 "a" none
        { overrideMissPolicy := some .staleWhileRevalidate } 0 false).2.1 =
      ⟨7, true, 0⟩ ∧
    Ev.spawnStale "a" ∈
      (Handler.GetOrRefresh (natHandler 0)
        (Handler.Set (natHandler 0) {} ("a" ++ ":stale") {} 7).1 "a" none
        { overrideMissPolicy := some .staleWhileRevalidate } 0
        false).1.trace :=
  ⟨((C10_stale_key_aliasing (natHandler 0)).2 {} "a" 7 (List.replicate 7 ())
      {} none 0 false rfl (by decide) (by decide) (by decide) (by decide)
      rfl).1,
   ((C10_stale_key_aliasing (natHandler 0)).2 {} "a" 7 (List.replicate 7 ())
      {} none 0 false rfl (by decide) (by decide) (by decide) (by decide)
      rfl).2.2⟩

end Cashcov
